import Mathlib

/-!
Verification development for the PLA officer-biography extraction pipeline
(`src/agent.py`, `src/schema.py`, `src/safeguards.py`, `src/tools/`).

The Python code is shallowly embedded: pure helper functions become Lean
functions, the process-wide `_SOURCE_CONTEXTS` dict becomes an explicit
association-list state threaded through the tool executors, and the agentic
loop of `PLAgentSDK.extract_bio_agentic` becomes a recursion over a script of
model responses.  Machine floats are modelled by exact rationals and Python's
two-decimal `round` by round-half-to-even on rationals; wall-clock timestamp
fields (`ToolResult.timestamp`, `extracted_at`, `completed_at`) are outside the
embedding, and the database-backed tools (`lookup_existing_officer`,
`lookup_unit_by_name`, `save_to_database`) perform external I/O and are not
modelled.
-/

namespace PLAgent

/-! ## Character/string helpers shared by the embedded modules -/

/-- Decimal value of a digit character. -/
def digitVal (c : Char) : Nat := c.toNat - '0'.toNat

/-- Python whitespace characters stripped by `str.strip()`. -/
def isPyWhitespace (c : Char) : Bool :=
  c = ' ' || c = '\t' || c = '\n' || c = '\r' || c = '\x0b' || c = '\x0c'

/-- Embeds `str.strip()` on the character list of a string. -/
def stripChars (l : List Char) : List Char :=
  ((l.dropWhile isPyWhitespace).reverse.dropWhile isPyWhitespace).reverse

/-- Embeds `str.strip()`. -/
def pyStrip (s : String) : String := String.mk (stripChars s.data)

/-- Embeds `str.startswith`, computed on character lists. -/
def strStartsWith (s pre : String) : Bool := pre.data.isPrefixOf s.data

/-- Substring test on character lists (`pattern in lowered` in Python). -/
def containsSub (hay needle : List Char) : Bool :=
  match hay with
  | [] => needle.isEmpty
  | _ :: t => needle.isPrefixOf hay || containsSub t needle

/-- All positions of non-overlapping left-to-right matches of `pat` in the
text starting at index `i` — the match positions produced by
`re.finditer(re.escape(term), source_text)`.  A zero-width pattern matches at
every index, advancing one character at a time, as the `re` engine does.  The
first argument is recursion fuel (at least the text length, so it never runs
out); it makes the recursion structural so that the kernel can evaluate the
function. -/
def findPosGo (pat : List Char) : Nat → List Char → Nat → List Nat
  | 0, text, i => if pat.isEmpty && text.isEmpty then [i] else []
  | fuel + 1, text, i =>
    match text with
    | [] => if pat.isEmpty then [i] else []
    | h :: t =>
      if pat.isPrefixOf (h :: t) then
        match pat with
        | [] => i :: findPosGo [] fuel t (i + 1)
        | p :: ps => i :: findPosGo (p :: ps) fuel (List.drop ps.length t) (i + (p :: ps).length)
      else findPosGo pat fuel t (i + 1)

/-- Match positions of `pat` in `text` (from position 0). -/
def findPositions (pat text : List Char) : List Nat := findPosGo pat text.length text 0

/-- ASCII lowering of a character list: the effect of `str.lower()` /
`re.IGNORECASE` on the sources handled here. -/
def lowerChars (l : List Char) : List Char := l.map Char.toLower

/-! ## `src/tools/validation_tools.py` — the source-context store

The process-wide dict `_SOURCE_CONTEXTS: Dict[str, str]` is embedded as an
association list threaded explicitly through the executors. -/

/-- The state of `_SOURCE_CONTEXTS`. -/
abbrev Store := List (String × String)

/-- Embeds `register_source_context`: `_SOURCE_CONTEXTS[source_ref] = source_text`. -/
def registerSourceContext (store : Store) (sourceRef sourceText : String) : Store :=
  (sourceRef, sourceText) :: store.filter (fun p => p.1 ≠ sourceRef)

/-- Embeds `clear_source_context`: `_SOURCE_CONTEXTS.pop(source_ref, None)`. -/
def clearSourceContext (store : Store) (sourceRef : String) : Store :=
  store.filter (fun p => p.1 ≠ sourceRef)

/-- Embeds `resolve_source_context`: `_SOURCE_CONTEXTS.get(source_ref)`. -/
def resolveSourceContext (store : Store) (sourceRef : String) : Option String :=
  store.lookup sourceRef

/-! ## `_parse_year` -/

/-- Embeds `_parse_year`: `re.match(r'^(\d{4})', date_str)` on a possibly missing
string — the year is the integer value of the first four characters when they
are all decimal digits (an empty or absent string yields nothing; `\d` is read
as the ASCII digits the data uses). -/
def parseYear : Option String → Option Nat
  | none => none
  | some s =>
    match s.data with
    | c0 :: c1 :: c2 :: c3 :: _ =>
      if c0.isDigit && c1.isDigit && c2.isDigit && c3.isDigit then
        some (((digitVal c0 * 10 + digitVal c1) * 10 + digitVal c2) * 10 + digitVal c3)
      else none
    | _ => none

/-- The year of a date field as the validator uses it: `_parse_year` followed by
the Python truthiness guard `if year:`, which drops year 0. -/
def guardYear (o : Option String) : Option Nat :=
  match parseYear o with
  | some y => if y ≠ 0 then some y else none
  | none => none

/-! ## `src/schema.py` — the biography record and its construction-time
validation

`OfficerBio` and `Promotion` are pydantic models: construction runs the field
validators (date-format and non-emptiness checks, which also strip names) and
then the model validator `validate_date_logic`.  The embedding separates the
value space (`OfficerBio`, `Promotion`) from the validating constructor
`mkOfficerBio : BioInput → Except (List String) OfficerBio`; an out-of-order or
ill-formatted record is only ever obtained through `mkOfficerBio`, which
rejects it.  The `extracted_at` wall-clock timestamp is omitted. -/

/-- A validated `Promotion`. -/
structure Promotion where
  rank : String
  date : Option String
  unit : Option String
deriving DecidableEq, Repr

/-- A validated `OfficerBio`. -/
structure OfficerBio where
  name : String
  source_url : String
  source_type : Option String
  pinyin_name : Option String
  hometown : Option String
  birth_date : Option String
  enlistment_date : Option String
  party_membership_date : Option String
  retirement_date : Option String
  death_date : Option String
  congress_participation : Option (List String)
  cppcc_participation : Option (List String)
  promotions : Option (List Promotion)
  notable_positions : Option (List String)
  awards : Option (List String)
  wife_name : Option String
  confidence_score : ℚ
  extraction_notes : Option String
deriving DecidableEq, Repr

/-- A promotion entry as supplied to the constructor (all keys optional). -/
structure PromoRaw where
  rank : Option String
  date : Option String
  unit : Option String
deriving DecidableEq, Repr

/-- The typed payload handed to `OfficerBio(**tool_input)`: every field may be
absent.  (Supplying a value of the wrong runtime type is outside the typed
embedding.) -/
structure BioInput where
  name : Option String := none
  source_url : Option String := none
  source_type : Option String := none
  pinyin_name : Option String := none
  hometown : Option String := none
  birth_date : Option String := none
  enlistment_date : Option String := none
  party_membership_date : Option String := none
  retirement_date : Option String := none
  death_date : Option String := none
  congress_participation : Option (List String) := none
  cppcc_participation : Option (List String) := none
  promotions : Option (List PromoRaw) := none
  notable_positions : Option (List String) := none
  awards : Option (List String) := none
  wife_name : Option String := none
  confidence_score : Option ℚ := none
  extraction_notes : Option String := none
deriving DecidableEq, Repr

/-- Embeds `^\d{4}$`. -/
def isYYYY (s : String) : Bool :=
  s.data.length = 4 && s.data.all Char.isDigit

/-- Embeds `^\d{4}-\d{2}-\d{2}$`. -/
def isYMDShape (s : String) : Bool :=
  match s.data with
  | [y0, y1, y2, y3, d1, m0, m1, d2, a0, a1] =>
    y0.isDigit && y1.isDigit && y2.isDigit && y3.isDigit &&
    d1 = '-' && m0.isDigit && m1.isDigit && d2 = '-' && a0.isDigit && a1.isDigit
  | _ => false

/-- Embeds `int(date_str[:4])` on a string whose first four characters are digits. -/
def year4 (s : String) : Nat :=
  match s.data with
  | c0 :: c1 :: c2 :: c3 :: _ =>
    ((digitVal c0 * 10 + digitVal c1) * 10 + digitVal c2) * 10 + digitVal c3
  | _ => 0

/-- Number of days in a month, with the Gregorian leap rule — what
`datetime.strptime(v, '%Y-%m-%d')` enforces. -/
def daysInMonth (y m : Nat) : Nat :=
  if m = 2 then
    if y % 4 = 0 && (y % 100 ≠ 0 || y % 400 = 0) then 29 else 28
  else if m = 4 || m = 6 || m = 9 || m = 11 then 30
  else 31

/-- Calendar validity of a `YYYY-MM-DD` string, as `datetime.strptime`
checks it (`datetime` years run 1–9999, so year 0000 is rejected). -/
def validCalendar (s : String) : Bool :=
  match s.data with
  | [y0, y1, y2, y3, _, m0, m1, _, a0, a1] =>
    let y := ((digitVal y0 * 10 + digitVal y1) * 10 + digitVal y2) * 10 + digitVal y3
    let m := digitVal m0 * 10 + digitVal m1
    let d := digitVal a0 * 10 + digitVal a1
    1 ≤ y && 1 ≤ m && m ≤ 12 && 1 ≤ d && d ≤ daysInMonth y m
  | _ => false

/-- The shared date-format field validator of `Promotion.validate_date_format`
and `OfficerBio.validate_date_fields`: a missing date passes, a `YYYY` string
passes, a `YYYY-MM-DD` string passes when it is a real calendar date, and
everything else is rejected. -/
def validateDateField (v : Option String) : Except String (Option String) :=
  match v with
  | none => .ok none
  | some s =>
    if isYYYY s then .ok (some s)
    else if isYMDShape s then
      if validCalendar s then .ok (some s) else .error ("Invalid date: " ++ s)
    else .error ("Date must be in YYYY or YYYY-MM-DD format, got: " ++ s)

/-- The pydantic `ge=0, le=1` bound check on `confidence_score`, written on
the numerator/denominator so that it evaluates by kernel reduction; it agrees
with `0 ≤ q ∧ q ≤ 1` (proved in `confidenceInRange_iff` below). -/
def confidenceInRange (q : ℚ) : Bool :=
  0 ≤ q.num && q.num ≤ (q.den : ℤ)

/-- The `rank` field validator of `Promotion`: required, non-empty after
stripping, returned stripped. -/
def validateRank (r : Option String) : Except String String :=
  match r with
  | none => .error "Field required"
  | some v => if pyStrip v = "" then .error "Rank cannot be empty" else .ok (pyStrip v)

/-- Field validation of one `Promotion` (`rank` required and non-empty, `date`
in the shared format); errors carry the pydantic-style field path. -/
def validatePromotion (idx : Nat) (p : PromoRaw) : Except (List String) Promotion :=
  match validateRank p.rank, validateDateField p.date with
  | .ok r, .ok d => .ok ⟨r, d, p.unit⟩
  | rr, dr =>
    .error ((match rr with
              | .error m => ["promotions." ++ toString idx ++ ".rank: " ++ m]
              | .ok _ => []) ++
            (match dr with
              | .error m => ["promotions." ++ toString idx ++ ".date: " ++ m]
              | .ok _ => []))

/-- Field validation of the whole promotions list. -/
def validatePromotions : Option (List PromoRaw) → Except (List String) (Option (List Promotion))
  | none => .ok none
  | some ps =>
    let results := (ps.enum).map (fun pi => validatePromotion pi.1 pi.2)
    if results.all (fun r => r.isOk) then
      .ok (some (results.filterMap (fun r => r.toOption)))
    else
      .error (results.foldr (fun r acc => (match r with | .error es => es | .ok _ => []) ++ acc) [])

/-- Tag a single-field validation error with its field name. -/
def fieldErr (fieldName : String) : Except String α → List String
  | .error m => [fieldName ++ ": " ++ m]
  | .ok _ => []

/-- The `name` field validator of `OfficerBio`: required, non-empty after
stripping, returned stripped. -/
def validateName (n : Option String) : Except String String :=
  match n with
  | none => .error "Field required"
  | some v => if pyStrip v = "" then .error "Name cannot be empty" else .ok (pyStrip v)

/-- The `source_url` field validator of `OfficerBio`: required, non-empty,
starting with `http://` or `https://`, returned stripped. -/
def validateUrl (u : Option String) : Except String String :=
  match u with
  | none => .error "Field required"
  | some v =>
    if pyStrip v = "" then .error "Source URL cannot be empty"
    else if ¬ (strStartsWith v "http://" || strStartsWith v "https://") then
      .error "Source URL must start with http:// or https://"
    else .ok (pyStrip v)

/-- The `confidence_score` bound validator (`ge=0, le=1`, defaulting to 0). -/
def validateConfidence (c : Option ℚ) : Except String ℚ :=
  if confidenceInRange (c.getD 0) then .ok (c.getD 0)
  else .error "Input should be between 0 and 1"

/-- The pydantic construction `OfficerBio(**input)`: all field validators run
(collecting every error), then `validate_date_logic` compares the years
`int(date_str[:4])` of the populated dates and raises at the first violated
relation.  The result is the validated record or the list of error messages
that `execute_save_officer_bio` formats. -/
def mkOfficerBio (inp : BioInput) : Except (List String) OfficerBio :=
  match validateName inp.name, validateUrl inp.source_url,
        validateDateField inp.birth_date, validateDateField inp.enlistment_date,
        validateDateField inp.party_membership_date, validateDateField inp.retirement_date,
        validateDateField inp.death_date, validatePromotions inp.promotions,
        validateConfidence inp.confidence_score with
  | .ok nm, .ok url, .ok b, .ok e, .ok p, .ok r, .ok d, .ok pr, .ok c =>
    -- validate_date_logic: year-level comparisons, first violation raises
    let yb := b.map year4
    let ye := e.map year4
    let yr := r.map year4
    let yd := d.map year4
    let ltBoth : Option Nat → Option Nat → Bool := fun x y =>
      match x, y with
      | some a, some bb => decide (a < bb)
      | _, _ => false
    if ltBoth yd yb then .error ["Death date cannot be before birth date"]
    else if ltBoth ye yb then .error ["Enlistment date cannot be before birth date"]
    else if ltBoth yr ye then .error ["Retirement date cannot be before enlistment date"]
    else
      .ok { name := nm, source_url := url,
            source_type := some (inp.source_type.getD "obituary"),
            pinyin_name := inp.pinyin_name, hometown := inp.hometown,
            birth_date := b, enlistment_date := e, party_membership_date := p,
            retirement_date := r, death_date := d,
            congress_participation := inp.congress_participation,
            cppcc_participation := inp.cppcc_participation,
            promotions := pr, notable_positions := inp.notable_positions,
            awards := inp.awards, wife_name := inp.wife_name,
            confidence_score := c, extraction_notes := inp.extraction_notes }
  | nameRes, urlRes, birthRes, enlistRes, partyRes, retireRes, deathRes, promosRes, csRes =>
    .error (fieldErr "name" nameRes ++ fieldErr "source_url" urlRes ++
            fieldErr "birth_date" birthRes ++ fieldErr "enlistment_date" enlistRes ++
            fieldErr "party_membership_date" partyRes ++ fieldErr "retirement_date" retireRes ++
            fieldErr "death_date" deathRes ++
            (match promosRes with | .error es => es | .ok _ => []) ++
            fieldErr "confidence_score" csRes)

/-! ## `schema.ToolResult`

The `data` dict payload of a `ToolResult` is embedded as an inductive of the
shapes the deterministic executors actually build; the echo of the raw tool
input inside failure payloads (`data={"input": tool_input}`) and the
`timestamp` field are omitted.  The pydantic invariant
`validate_error_on_failure` is the subject of claim C9 and is proved, not
assumed. -/

/-- Verification excerpt entry (`{"term": ..., "excerpt": ..., "position": ...}`). -/
structure Excerpt where
  term : String
  excerpt : String
  position : Nat
deriving DecidableEq, Repr

/-- The `data` payloads built by the embedded executors. -/
inductive ToolData where
  | datesErrors (errors warnings : List String)
  | datesOk (warnings : List String) (birthYear enlistYear partyYear deathYear : Option Nat)
      (promotionCount : Nat)
  | verifyNoSource (fieldName : String) (sourceRef : Option String)
  | verifyNoTerms (fieldName : String)
  | verifyFound (fieldName : String) (matchedTerms : List String) (excerptCount : Nat)
      (excerpts : List String) (message : String)
  | verifyNotFound (fieldName : String) (searchedTerms : List String) (message : String)
  | saveUrlRejected (errors : List String)
  | saveInvalid (errors : List String)
  | saveOk (bio : OfficerBio) (confidence : ℚ)
  | unknownInput
deriving DecidableEq, Repr

/-- Embeds `schema.ToolResult` (without the wall-clock timestamp). -/
structure ToolResult where
  tool_name : String
  success : Bool
  data : ToolData
  error : Option String
deriving DecidableEq, Repr

/-! ## `execute_validate_dates` -/

/-- One entry of the `promotions` list as supplied to `validate_dates`
(`rank`/`date` keys both optional; an entry without a `date` key is skipped). -/
structure PromoInput where
  rank : Option String
  date : Option String
deriving DecidableEq, Repr

/-- The input dict of `validate_dates`. -/
structure DatesInput where
  birth_date : Option String := none
  enlistment_date : Option String := none
  party_membership_date : Option String := none
  death_date : Option String := none
  promotions : List PromoInput := []
deriving DecidableEq, Repr

/-- The `(rank, year)` pairs the validator collects: promotions in original
order, keeping those whose date parses to a truthy (non-zero) year. -/
def promotionYears (ps : List PromoInput) : List (String × Nat) :=
  ps.filterMap (fun p =>
    match guardYear p.date with
    | some y => some (p.rank.getD "Unknown", y)
    | none => none)

/-- Error messages for adjacent out-of-order promotion pairs, in list order. -/
def promoPairErrors : List (String × Nat) → List String
  | [] => []
  | [_] => []
  | a :: b :: t =>
    (if b.2 < a.2 then
      ["Promotion to " ++ a.1 ++ " in " ++ toString a.2 ++
       " is after promotion to " ++ b.1 ++ " in " ++ toString b.2]
     else []) ++ promoPairErrors (b :: t)

/-- The birth-date violation messages (`# 1. Birth date checks`). -/
def birthErrors (yb ye yp : Option Nat) (promos : List (String × Nat)) : List String :=
  match yb with
  | none => []
  | some b =>
    (match ye with
     | some e => if e < b then
         ["Birth date " ++ toString b ++ " is after enlistment date " ++ toString e]
       else []
     | none => []) ++
    (match yp with
     | some p => if p < b then
         ["Birth date " ++ toString b ++ " is after party membership date " ++ toString p]
       else []
     | none => []) ++
    promos.filterMap (fun pr =>
      if pr.2 < b then
        some ("Birth date " ++ toString b ++ " is after promotion to " ++ pr.1 ++
              " in " ++ toString pr.2)
      else none)

/-- The death-date violation messages (`# 2. Death date checks`). -/
def deathErrors (yd yb ye : Option Nat) : List String :=
  match yd with
  | none => []
  | some d =>
    (match yb with
     | some b => if d < b then
         ["Death date " ++ toString d ++ " is before birth date " ++ toString b]
       else []
     | none => []) ++
    (match ye with
     | some e => if d < e then
         ["Death date " ++ toString d ++ " is before enlistment date " ++ toString e]
       else []
     | none => [])

/-- The enlistment-versus-promotion violation messages
(`# 3. Enlistment date checks`). -/
def enlistPromoErrors (ye : Option Nat) (promos : List (String × Nat)) : List String :=
  match ye with
  | none => []
  | some e =>
    promos.filterMap (fun pr =>
      if pr.2 < e then
        some ("Enlistment date " ++ toString e ++ " is after promotion to " ++ pr.1 ++
              " in " ++ toString pr.2)
      else none)

/-- The accumulated error list of `execute_validate_dates`, in the order the
code appends them. -/
def validateDatesErrors (inp : DatesInput) : List String :=
  let promos := promotionYears inp.promotions
  birthErrors (guardYear inp.birth_date) (guardYear inp.enlistment_date)
      (guardYear inp.party_membership_date) promos ++
    deathErrors (guardYear inp.death_date) (guardYear inp.birth_date)
      (guardYear inp.enlistment_date) ++
    enlistPromoErrors (guardYear inp.enlistment_date) promos ++
    promoPairErrors promos

/-- The warning list (enlistment after party membership is a warning only). -/
def validateDatesWarnings (inp : DatesInput) : List String :=
  match guardYear inp.enlistment_date, guardYear inp.party_membership_date with
  | some e, some p =>
    if p < e then
      ["Enlistment date " ++ toString e ++ " is after party membership date " ++ toString p ++
       " (unusual but possible)"]
    else []
  | _, _ => []

/-- Embeds `execute_validate_dates`: parses each date field's year, accumulates every
violation, and reports either a failure carrying all errors or a success
summary.  The failure's `error` string is the joined error/warning block after
`str.strip()`. -/
def executeValidateDates (inp : DatesInput) : ToolResult :=
  let errors := validateDatesErrors inp
  let warnings := validateDatesWarnings inp
  if errors ≠ [] then
    let errorMsg :=
      "Date inconsistencies found:\n" ++
      String.join (errors.map (fun e => " - " ++ e ++ "\n")) ++
      (if warnings ≠ [] then
        "\nWarnings:\n" ++ String.join (warnings.map (fun w => " - " ++ w ++ "\n"))
       else "")
    { tool_name := "validate_dates", success := false,
      data := .datesErrors errors warnings, error := some (pyStrip errorMsg) }
  else
    { tool_name := "validate_dates", success := true,
      data := .datesOk warnings (parseYear inp.birth_date) (parseYear inp.enlistment_date)
                (parseYear inp.party_membership_date) (parseYear inp.death_date)
                (promotionYears inp.promotions).length,
      error := none }

/-! ## `execute_verify_information` -/

/-- The input dict of `verify_information_present` (`field_name` defaults to
`"unknown"`, `search_terms` to the empty list when absent). -/
structure VerifyInput where
  field_name : Option String := none
  search_terms : List String := []
  source_ref : Option String := none
deriving DecidableEq, Repr

/-- Build the context excerpt around a match of `term` at `pos` — 50
characters on each side with ellipses marking truncation. -/
def mkExcerpt (text : List Char) (term : String) (pos : Nat) : Excerpt :=
  let matchEnd := pos + (lowerChars term.data).length
  let contextStart := pos - 50
  let contextEnd := min text.length (matchEnd + 50)
  let core := String.mk ((text.drop contextStart).take (contextEnd - contextStart))
  let withPre := if 0 < contextStart then "..." ++ core else core
  let withPost := if contextEnd < text.length then withPre ++ "..." else withPre
  ⟨term, withPost, pos⟩

/-- All `(term, excerpt, position)` entries, term by term in input order —
the `found_excerpts` list. -/
def foundExcerpts (text : List Char) (terms : List String) : List Excerpt :=
  terms.foldr
    (fun term acc =>
      ((findPositions (lowerChars term.data) (lowerChars text)).map
        (fun pos => mkExcerpt text term pos)) ++ acc)
    []

/-- The matched terms, one per raw match (`found_terms`); the reported
`matched_terms` is `list(set(found_terms))`, embedded as first-occurrence
deduplication. -/
def foundTerms (text : List Char) (terms : List String) : List String :=
  terms.foldr
    (fun term acc =>
      ((findPositions (lowerChars term.data) (lowerChars text)).map (fun _ => term)) ++ acc)
    []

/-- Deduplicate excerpts by position, keeping input order, stopping once three
distinct positions are collected (the loop breaks when `len(unique) >= 3`). -/
def uniqueExcerpts : List Excerpt → List Nat → List Excerpt
  | [], _ => []
  | e :: t, seen =>
    if e.position ∈ seen then
      if 3 ≤ seen.length then [] else uniqueExcerpts t seen
    else
      e :: (if 3 ≤ (seen ++ [e.position]).length then []
            else uniqueExcerpts t (seen ++ [e.position]))

/-- Embeds `', '.join(search_terms)`. -/
def joinComma (l : List String) : String := String.intercalate ", " l

/-- Embeds `execute_verify_information`: resolves the source text from the store,
fails when it is missing/empty or when no search terms were given, and
otherwise searches every term case-insensitively, reporting matches (with up
to three deduplicated excerpts) or a successful not-found result.  The store
is returned so that any mutation of `_SOURCE_CONTEXTS` would be visible; the
executor only reads it. -/
def executeVerifyInformation (store : Store) (inp : VerifyInput) : ToolResult × Store :=
  let fieldName := inp.field_name.getD "unknown"
  -- `if source_ref:` — a missing or empty (falsy) reference is never resolved
  let sourceText :=
    match inp.source_ref with
    | some r => if r = "" then "" else (resolveSourceContext store r).getD ""
    | none => ""
  if sourceText = "" then
    ({ tool_name := "verify_information_present", success := false,
       data := .verifyNoSource fieldName inp.source_ref,
       error := some "No source text available for verification (missing or invalid source_ref)" },
     store)
  else if inp.search_terms = [] then
    ({ tool_name := "verify_information_present", success := false,
       data := .verifyNoTerms fieldName,
       error := some "No search terms provided" }, store)
  else
    let excerptsAll := foundExcerpts sourceText.data inp.search_terms
    let uniques := uniqueExcerpts excerptsAll []
    if excerptsAll ≠ [] then
      ({ tool_name := "verify_information_present", success := true,
         data := .verifyFound fieldName ((foundTerms sourceText.data inp.search_terms).eraseDups)
                   uniques.length (uniques.map (fun e => e.excerpt))
                   ("Found " ++ toString uniques.length ++ " mention(s) of " ++ fieldName ++
                    " in the text."),
         error := none }, store)
    else
      ({ tool_name := "verify_information_present", success := true,
         data := .verifyNotFound fieldName inp.search_terms
                   ("No mention of " ++ fieldName ++ " found in the text. Searched for: " ++
                    joinComma inp.search_terms),
         error := none }, store)

/-! ## `src/safeguards.py` -/

/-- Embeds `SUSPICIOUS_URL_PATTERNS`. -/
def suspiciousUrlPatterns : List String :=
  ["example.com", "placeholder", "test.com", "localhost"]

/-- Embeds `validate_real_source_url`: lower-cases the URL and rejects it with a
descriptive message when any suspicious pattern occurs as a substring. -/
def validateRealSourceUrl (sourceUrl : String) : Bool × String :=
  let lowered := (sourceUrl.data.map Char.toLower)
  if suspiciousUrlPatterns.any (fun pat => containsSub lowered pat.data) then
    (false, "source_url appears to be a placeholder: " ++ sourceUrl ++
            ". Please provide the actual source URL.")
  else (true, "ok")

/-! ## `src/tools/extraction_tools.py` — `execute_save_officer_bio` -/

/-- A top-level value of the raw `save_officer_bio` dict that is declared as a
list field but may arrive as a bare string (which `_sanitize_tool_input`
wraps into a one-element list). -/
inductive StrOrList where
  | missing
  | str (s : String)
  | strs (xs : List String)
deriving DecidableEq, Repr

/-- The raw `save_officer_bio` tool input before sanitization.  Promotions
arrive as a list of dicts (their nested values are not touched by the
top-level sanitizer). -/
structure SaveBioRaw where
  name : Option String := none
  source_url : Option String := none
  source_type : Option String := none
  pinyin_name : Option String := none
  hometown : Option String := none
  birth_date : Option String := none
  enlistment_date : Option String := none
  party_membership_date : Option String := none
  retirement_date : Option String := none
  death_date : Option String := none
  wife_name : Option String := none
  extraction_notes : Option String := none
  congress_participation : StrOrList := .missing
  cppcc_participation : StrOrList := .missing
  notable_positions : StrOrList := .missing
  awards : StrOrList := .missing
  promotions : Option (List PromoRaw) := none
  confidence_score : Option ℚ := none
deriving DecidableEq, Repr

/-- Is the string the literal `"null"`/`"none"` (case-insensitively) or
all whitespace?  Such values are replaced by an actual absent value. -/
def isNullish (s : String) : Bool :=
  let lowered := String.mk (s.data.map Char.toLower)
  lowered = "null" || lowered = "none" || pyStrip s = ""

/-- Sanitization of one string-valued entry. -/
def sanitizeStr : Option String → Option String
  | none => none
  | some s => if isNullish s then none else some s

/-- Sanitization of one list-field entry: nullish strings become absent,
other bare strings become one-element lists. -/
def sanitizeList : StrOrList → Option (List String)
  | .missing => none
  | .str s => if isNullish s then none else some [s]
  | .strs xs => some xs

/-- Embeds `_sanitize_tool_input` on the raw payload. -/
def sanitizeToolInput (r : SaveBioRaw) : BioInput :=
  { name := sanitizeStr r.name, source_url := sanitizeStr r.source_url,
    source_type := sanitizeStr r.source_type, pinyin_name := sanitizeStr r.pinyin_name,
    hometown := sanitizeStr r.hometown, birth_date := sanitizeStr r.birth_date,
    enlistment_date := sanitizeStr r.enlistment_date,
    party_membership_date := sanitizeStr r.party_membership_date,
    retirement_date := sanitizeStr r.retirement_date,
    death_date := sanitizeStr r.death_date,
    congress_participation := sanitizeList r.congress_participation,
    cppcc_participation := sanitizeList r.cppcc_participation,
    promotions := r.promotions,
    notable_positions := sanitizeList r.notable_positions,
    awards := sanitizeList r.awards,
    wife_name := sanitizeStr r.wife_name,
    confidence_score := r.confidence_score,
    extraction_notes := sanitizeStr r.extraction_notes }

/-- The `error` string of the placeholder-URL rejection. -/
def placeholderUrlError (url : String) : String :=
  "WARNING: Placeholder URL detected: " ++ url ++ "\n" ++
  "This suggests the extraction may be using incorrect source data.\n" ++
  "Please verify the source URL is correct before saving."

/-- Embeds `execute_save_officer_bio`: sanitizes the payload, rejects placeholder
source URLs before any schema validation, then validates against the
`OfficerBio` schema, returning the validated record or the field-error
list. -/
def executeSaveOfficerBio (raw : SaveBioRaw) : ToolResult :=
  let inp := sanitizeToolInput raw
  let url := inp.source_url.getD ""
  let urlCheck := validateRealSourceUrl url
  if urlCheck.1 = false then
    { tool_name := "save_officer_bio", success := false,
      data := .saveUrlRejected
        [urlCheck.2, "Please provide the actual source URL (e.g., https://www.news.cn/...)"],
      error := some (placeholderUrlError url) }
  else
    match mkOfficerBio inp with
    | .ok bio =>
      { tool_name := "save_officer_bio", success := true,
        data := .saveOk bio bio.confidence_score, error := none }
    | .error errs =>
      { tool_name := "save_officer_bio", success := false,
        data := .saveInvalid errs,
        error := some ("Validation failed:\n" ++ String.intercalate "\n" errs) }

/-! ## `src/tools/__init__.py` — the dispatcher `execute_tool`

The three deterministic executors are embedded; the database-backed tools
(`lookup_existing_officer`, `lookup_unit_by_name`, `save_to_database`)
perform external I/O and are outside the embedding, so `unknownTool` stands
for any tool name outside the embedded set. -/

/-- A dispatched tool invocation. -/
inductive ToolCall where
  | validateDates (inp : DatesInput)
  | verifyInformation (inp : VerifyInput)
  | saveOfficerBio (inp : SaveBioRaw)
  | unknownTool (name : String)
deriving DecidableEq, Repr

/-- ASCII single quote (the list repr in the unknown-tool message). -/
def sq : String := String.mk [Char.ofNat 39]

/-- The `Unknown tool: ...` error message with the registry listing. -/
def unknownToolError (name : String) : String :=
  "Unknown tool: " ++ name ++ ". Available tools: [" ++
  sq ++ "save_officer_bio" ++ sq ++ ", " ++ sq ++ "validate_dates" ++ sq ++ ", " ++
  sq ++ "verify_information_present" ++ sq ++ ", " ++ sq ++ "lookup_existing_officer" ++ sq ++
  ", " ++ sq ++ "lookup_unit_by_name" ++ sq ++ ", " ++ sq ++ "save_to_database" ++ sq ++ "]"

/-- Embeds `execute_tool`: dispatches by name, turning unknown names into a failure
`ToolResult` instead of raising; executor exceptions are likewise captured as
failure results in the source (the embedded executors are total, so that
branch has no inhabitant here).  The store is threaded so any mutation of
`_SOURCE_CONTEXTS` would be visible. -/
def executeTool (store : Store) : ToolCall → ToolResult × Store
  | .validateDates inp => (executeValidateDates inp, store)
  | .verifyInformation inp => executeVerifyInformation store inp
  | .saveOfficerBio inp => (executeSaveOfficerBio inp, store)
  | .unknownTool name =>
    ({ tool_name := name, success := false, data := .unknownInput,
       error := some (unknownToolError name) }, store)

/-! ## `src/agent.py` — `PLAgentSDK.extract_bio_agentic`

The controller's interaction with the model provider is embedded as a script
of responses: one script entry is consumed per loop iteration (each iteration
makes exactly one `_call_api_with_retry` call).  An exhausted script models
the provider call raising after retry exhaustion, which propagates out of the
method. -/

/-- Embeds `CONFIG.MAX_ITERATIONS` (default value). -/
def maxIterations : Nat := 10

/-- The stop reason of a model response. -/
inductive StopReason where
  | toolUse
  | endTurn
  | maxTokens
  | other (s : String)
deriving DecidableEq, Repr

/-- One model response: stop reason, the `tool_use` blocks, and token usage.
The `tool_use` blocks are only acted on when the stop reason is `tool_use`,
as in the source. -/
structure ModelResponse where
  stopReason : StopReason
  toolUses : List ToolCall := []
  inputTokens : Nat := 0
  outputTokens : Nat := 0
deriving DecidableEq, Repr

/-- Embeds `schema.AgentExtractionResult` (without the wall-clock timestamp). -/
structure AgentExtractionResult where
  officer_bio : Option OfficerBio
  tool_calls : List ToolResult
  conversation_turns : Nat
  total_input_tokens : Nat
  total_output_tokens : Nat
  success : Bool
  error_message : Option String
deriving DecidableEq, Repr

/-- How the agentic loop ended. -/
inductive LoopExit where
  | ranOut
  | brokeEndTurn
  | brokeOther
  | maxTokensStop
  | iterationsExhausted
deriving DecidableEq, Repr

/-- The state the loop hands to the post-loop code. -/
structure LoopOutput where
  history : List ToolResult
  turns : Nat
  apiCalls : Nat
  inTok : Nat
  outTok : Nat
  store : Store
  exit : LoopExit
deriving Repr

/-- Execute a block of `tool_use` invocations, accumulating the results in
order and threading the store. -/
def execToolList (store : Store) : List ToolCall → List ToolResult × Store
  | [] => ([], store)
  | c :: cs =>
    let r := executeTool store c
    let rest := execToolList r.2 cs
    (r.1 :: rest.1, rest.2)

/-- The agentic `for iteration in range(self.max_iterations)` loop.  Each
iteration increments the turn counter, consumes one model response, adds its
token usage, and either executes the requested tools and continues
(`tool_use`), breaks (`end_turn` or an unexpected stop reason), or returns the
max-tokens failure; the `for`-`else` branch is the `iterationsExhausted`
exit. -/
def agenticLoop : Nat → List ModelResponse → Store → List ToolResult → Nat → Nat → Nat → Nat →
    LoopOutput
  | 0, _, store, history, turns, calls, itok, otok =>
    ⟨history, turns, calls, itok, otok, store, .iterationsExhausted⟩
  | _ + 1, [], store, history, turns, calls, itok, otok =>
    ⟨history, turns + 1, calls, itok, otok, store, .ranOut⟩
  | fuel + 1, r :: rest, store, history, turns, calls, itok, otok =>
    let turns1 := turns + 1
    let calls1 := calls + 1
    let itok1 := itok + r.inputTokens
    let otok1 := otok + r.outputTokens
    match r.stopReason with
    | .toolUse =>
      let es := execToolList store r.toolUses
      agenticLoop fuel rest es.2 (history ++ es.1) turns1 calls1 itok1 otok1
    | .endTurn => ⟨history, turns1, calls1, itok1, otok1, store, .brokeEndTurn⟩
    | .maxTokens => ⟨history, turns1, calls1, itok1, otok1, store, .maxTokensStop⟩
    | .other _ => ⟨history, turns1, calls1, itok1, otok1, store, .brokeOther⟩

/-- Embeds `_extract_officer_bio_from_history`: the most recent successful
`save_officer_bio` result's validated record (reconstruction from the result
payload always succeeds since the payload is the serialized validated
record). -/
def extractOfficerBioFromHistory (toolCalls : List ToolResult) : Option OfficerBio :=
  (toolCalls.reverse.find? (fun tr =>
    tr.tool_name = "save_officer_bio" && tr.success)).bind (fun tr =>
      match tr.data with
      | .saveOk bio _ => some bio
      | _ => none)

/-- Round half to even at integer precision (the tie-breaking of Python's
built-in `round`). -/
def roundHalfEven (q : ℚ) : ℤ :=
  let f := ⌊q⌋
  let r := q - f
  if r < 1 / 2 then f
  else if 1 / 2 < r then f + 1
  else if f % 2 = 0 then f else f + 1

/-- Embeds `round(x, 2)` modelled on exact rationals. -/
def round2 (q : ℚ) : ℚ := (roundHalfEven (q * 100) : ℚ) / 100

/-- The fixed key-field set of `_calculate_confidence` and the count of its
populated members (`to_dict(exclude_none=True)` keeps exactly the fields that
are not `None`). -/
def keyFieldsPopulated (bio : OfficerBio) : Nat :=
  [bio.pinyin_name.isSome, bio.hometown.isSome, bio.birth_date.isSome,
   bio.enlistment_date.isSome, bio.party_membership_date.isSome,
   bio.promotions.isSome, bio.notable_positions.isSome].count true

/-- Embeds `PLAgentSDK._calculate_confidence`: starts from the record's stored
confidence score, adds a 0.05 bonus (capped at 1.0) when some `validate_dates`
call succeeded and then a 0.03 bonus (capped at 1.0) when any
`verify_information_present` call was made, and averages the result with the
key-field completeness fraction at weights 0.7/0.3, rounded to two
decimals. -/
def calculateConfidence (bio : OfficerBio) (toolCalls : List ToolResult) : ℚ :=
  let base0 := bio.confidence_score
  let base1 :=
    if toolCalls.any (fun tc => tc.tool_name = "validate_dates" && tc.success) then
      min 1 (base0 + 5 / 100)
    else base0
  let verificationCount :=
    (toolCalls.filter (fun tc => tc.tool_name = "verify_information_present")).length
  let base2 := if 0 < verificationCount then min 1 (base1 + 3 / 100) else base1
  let completeness := (keyFieldsPopulated bio : ℚ) / 7
  round2 (base2 * (7 / 10) + completeness * (3 / 10))

/-- Modelled from the spec (§4.7), for comparison with the source's
`calculateConfidence`: `0.55 × completeness + 0.25 × chronologyPassed +
0.10 × verificationSuccessRatio + 0.10 × toolSuccessRatio`, rounded to two
decimals, where the verification ratio defaults to 0.5 when no verification
call was made and the tool ratio to 0.0 when no tool ran. -/
def specConfidence (bio : OfficerBio) (toolCalls : List ToolResult) : ℚ :=
  let completeness := (keyFieldsPopulated bio : ℚ) / 7
  let chronologyPassed : ℚ :=
    if toolCalls.any (fun tc => tc.tool_name = "validate_dates" && tc.success) then 1 else 0
  let verifyCalls := toolCalls.filter (fun tc => tc.tool_name = "verify_information_present")
  let verifySuccessRate : ℚ :=
    if verifyCalls = [] then 1 / 2
    else ((verifyCalls.filter (fun tc => tc.success)).length : ℚ) / verifyCalls.length
  let toolSuccessRate : ℚ :=
    if toolCalls = [] then 0
    else ((toolCalls.filter (fun tc => tc.success)).length : ℚ) / toolCalls.length
  round2 (55 / 100 * completeness + 25 / 100 * chronologyPassed +
          10 / 100 * verifySuccessRate + 10 / 100 * toolSuccessRate)

/-- The outcome of one `extract_bio_agentic` call, together with the final
store state and the number of completed model requests. -/
structure ExtractRun where
  result : Option AgentExtractionResult
  store : Store
  apiCalls : Nat
deriving Repr

/-- Embeds `PLAgentSDK.extract_bio_agentic` given a script of model responses: runs
the agentic loop, then either surfaces the loop's failure result, or extracts
the last saved record from the tool history, recalculates its confidence and
returns the success result; with no saved record the extraction fails with
the fixed not-saved message.  A `result` of `none` models the provider-layer
exception propagating out of the call. -/
def extractBioAgentic (script : List ModelResponse) (store : Store) : ExtractRun :=
  let out := agenticLoop maxIterations script store [] 0 0 0 0
  match out.exit with
  | .ranOut => ⟨none, out.store, out.apiCalls⟩
  | .maxTokensStop =>
    ⟨some { officer_bio := none, tool_calls := out.history,
            conversation_turns := out.turns, total_input_tokens := out.inTok,
            total_output_tokens := out.outTok, success := false,
            error_message := some "Response exceeded maximum token limit" },
     out.store, out.apiCalls⟩
  | .iterationsExhausted =>
    ⟨some { officer_bio := none, tool_calls := out.history,
            conversation_turns := out.turns, total_input_tokens := out.inTok,
            total_output_tokens := out.outTok, success := false,
            error_message := some ("Maximum iterations (" ++ toString maxIterations ++
              ") reached without completion") },
     out.store, out.apiCalls⟩
  | _ =>
    match extractOfficerBioFromHistory out.history with
    | some bio =>
      let confidence := calculateConfidence bio out.history
      ⟨some { officer_bio := some { bio with confidence_score := confidence },
              tool_calls := out.history, conversation_turns := out.turns,
              total_input_tokens := out.inTok, total_output_tokens := out.outTok,
              success := true, error_message := none },
       out.store, out.apiCalls⟩
    | none =>
      ⟨some { officer_bio := none, tool_calls := out.history,
              conversation_turns := out.turns, total_input_tokens := out.inTok,
              total_output_tokens := out.outTok, success := false,
              error_message :=
                some "Officer bio was not saved - save_officer_bio was never called or failed" },
       out.store, out.apiCalls⟩

/-! ## Declarative predicates used in claim statements -/

/-- Chronological consistency as the claim states it, over the years the
validator actually uses (`guardYear` / `promotionYears`): birth not after
enlistment, party membership or any promotion; death not before birth or
enlistment; enlistment not after any promotion; and promotions non-decreasing
in extraction order. -/
def chronologyConsistent (inp : DatesInput) : Prop :=
  (∀ b ∈ guardYear inp.birth_date,
    (∀ e ∈ guardYear inp.enlistment_date, b ≤ e) ∧
    (∀ p ∈ guardYear inp.party_membership_date, b ≤ p) ∧
    (∀ pr ∈ promotionYears inp.promotions, b ≤ pr.2)) ∧
  (∀ d ∈ guardYear inp.death_date,
    (∀ b ∈ guardYear inp.birth_date, b ≤ d) ∧
    (∀ e ∈ guardYear inp.enlistment_date, e ≤ d)) ∧
  (∀ e ∈ guardYear inp.enlistment_date, ∀ pr ∈ promotionYears inp.promotions, e ≤ pr.2) ∧
  List.Chain' (fun a b => a.2 ≤ b.2) (promotionYears inp.promotions)

/-- A populated date field matches one of the two accepted shapes
(`^\d{4}$` or `^\d{4}-\d{2}-\d{2}$`). -/
def dateFieldOk (o : Option String) : Prop :=
  ∀ s ∈ o, isYYYY s = true ∨ isYMDShape s = true

/-! ## Concrete instances used by individual claims

Rational literals are written with the explicit `Rat` constructor so that the
kernel can reduce their numerator and denominator (the `Rat` arithmetic
operations of the library are irreducible by design). -/

/-- The rational 1/2 as an explicit constructor term. -/
def qHalf : ℚ := ⟨1, 2, by decide, by decide⟩

/-- The rational 9/10 as an explicit constructor term. -/
def qNineTenths : ℚ := ⟨9, 10, by decide, by decide⟩

/-- Record with no populated key field and stored confidence 0 (claim C1). -/
def c1Bio : OfficerBio :=
  { name := "测试"
    source_url := "https://www.news.cn/x"
    source_type := some "obituary"
    pinyin_name := none
    hometown := none
    birth_date := none
    enlistment_date := none
    party_membership_date := none
    retirement_date := none
    death_date := none
    congress_participation := none
    cppcc_participation := none
    promotions := none
    notable_positions := none
    awards := none
    wife_name := none
    confidence_score := 0
    extraction_notes := none }

/-- Script in which the model issues one verification call against an
unregistered reference and then stops (claim C2). -/
def c2Script : List ModelResponse :=
  [ { stopReason := .toolUse
      toolUses := [.verifyInformation
        { field_name := some "wife_name"
          search_terms := ["妻子"]
          source_ref := some "src_ref_1" }] },
    { stopReason := .endTurn } ]

/-- A `save_officer_bio` payload that fails schema validation (claim C3). -/
def c3BadSave : SaveBioRaw :=
  { name := some ""
    source_url := some "https://www.news.cn/a" }

/-- Script with three tool-use turns (two of them failing saves) before the
model stops (claim C3). -/
def c3Script : List ModelResponse :=
  [ { stopReason := .toolUse, toolUses := [.saveOfficerBio c3BadSave] },
    { stopReason := .toolUse, toolUses := [.saveOfficerBio c3BadSave] },
    { stopReason := .toolUse, toolUses := [] },
    { stopReason := .endTurn } ]

/-- Source text mentioning no spouse term (claim C4). -/
def c4SourceText : String := "林炳尧同志，因病医治无效逝世。"

/-- A save payload carrying the rare field `wife_name` (claim C4). -/
def c4SaveRaw : SaveBioRaw :=
  { name := some "林炳尧"
    source_url := some "https://www.news.cn/a"
    wife_name := some "张三"
    confidence_score := some qHalf }

/-- Store with the source text registered under `src_1` (claim C4). -/
def c4Store : Store := [("src_1", c4SourceText)]

/-- Script: the model verifies `wife_name` against the registered source
(no term matches), saves the record with `wife_name` populated, and stops
(claim C4). -/
def c4Script : List ModelResponse :=
  [ { stopReason := .toolUse
      toolUses := [.verifyInformation
        { field_name := some "wife_name"
          search_terms := ["妻子", "夫人", "配偶"]
          source_ref := some "src_1" },
        .saveOfficerBio c4SaveRaw] },
    { stopReason := .endTurn } ]

/-- Scenario-A input: birth 1943, enlistment 1961, party 1964, one promotion
1995, death 2023-01-15 (claim C5). -/
def c5ScenarioA : DatesInput :=
  { birth_date := some "1943"
    enlistment_date := some "1961"
    party_membership_date := some "1964"
    death_date := some "2023-01-15"
    promotions := [⟨some "少将", some "1995"⟩] }

/-- Scenario-B input: enlistment 1990, promotion dated 1985 (claim C5). -/
def c5ScenarioB : DatesInput :=
  { enlistment_date := some "1990"
    promotions := [⟨some "少将", some "1985"⟩, ⟨some "中将", some "1995"⟩] }

/-- Input with two independent violations (claim C5). -/
def c5TwoViolations : DatesInput :=
  { birth_date := some "2000"
    enlistment_date := some "1990"
    death_date := some "1995" }

/-- Enlistment in year 1 with a promotion dated `"0000"`: a present,
well-formatted promotion date earlier than enlistment (claim C5). -/
def c5YearZero : DatesInput :=
  { enlistment_date := some "0001"
    promotions := [⟨some "少将", some "0000"⟩] }

/-- A fully populated, chronologically ordered construction input (claim C6
witness). -/
def c6Input : BioInput :=
  { name := some "林炳尧"
    source_url := some "https://www.news.cn/20250901/x.html"
    birth_date := some "1943"
    enlistment_date := some "1961"
    party_membership_date := some "1964"
    retirement_date := some "2002"
    death_date := some "2023-01-15"
    promotions := some [⟨some "少将", some "1995", none⟩]
    confidence_score := some qNineTenths }

/-- The record `mkOfficerBio` builds from `c6Input` (claim C6 witness). -/
def c6Bio : OfficerBio :=
  { name := "林炳尧"
    source_url := "https://www.news.cn/20250901/x.html"
    source_type := some "obituary"
    pinyin_name := none
    hometown := none
    birth_date := some "1943"
    enlistment_date := some "1961"
    party_membership_date := some "1964"
    retirement_date := some "2002"
    death_date := some "2023-01-15"
    congress_participation := none
    cppcc_participation := none
    promotions := some [⟨"少将", some "1995", none⟩]
    notable_positions := none
    awards := none
    wife_name := none
    confidence_score := qNineTenths
    extraction_notes := none }

/-- Payload with a placeholder source URL and a schema-invalid name
(claim C7). -/
def c7Raw : SaveBioRaw :=
  { name := some ""
    source_url := some "https://example.com/test" }

/-- A store binding used by the C10 witness. -/
def c10Store : Store := [("src_w", "他的夫人是张三。")]

/-- A verification input resolving in `c10Store` whose single search term does
not occur in the registered text (claim C10 witness). -/
def c10Input : VerifyInput :=
  { field_name := some "wife_name"
    search_terms := ["妻子"]
    source_ref := some "src_w" }

/-! # Helper lemmas -/

set_option maxRecDepth 10000

/-- The verification executor never mutates the source-context store. -/
theorem executeVerifyInformation_store_eq (store : Store) (inp : VerifyInput) :
    (executeVerifyInformation store inp).2 = store := by
  unfold executeVerifyInformation
  dsimp only
  repeat' split <;> try rfl

/-- The tool dispatcher never mutates the source-context store. -/
theorem executeTool_store_eq (store : Store) (call : ToolCall) :
    (executeTool store call).2 = store := by
  cases call with
  | verifyInformation inp => exact executeVerifyInformation_store_eq store inp
  | validateDates inp => rfl
  | saveOfficerBio inp => rfl
  | unknownTool n => rfl

/-- Appending to a string with a non-empty character list cannot give the
empty string. -/
theorem append_ne_empty {s : String} (t : String) (h : s.data ≠ []) : s ++ t ≠ "" := by
  intro he
  apply h
  have h2 : (s ++ t).data = [] := by rw [he]
  rw [String.data_append] at h2
  exact (List.append_eq_nil.mp h2).1

/-- Stripping a string that contains a non-whitespace character cannot give
the empty string. -/
theorem pyStrip_ne_empty {s : String} (c : Char) (hc : c ∈ s.data)
    (hw : isPyWhitespace c = false) : pyStrip s ≠ "" := by
  intro he
  have hl : stripChars s.data = [] := by
    have h2 := congrArg String.data he
    simpa [pyStrip] using h2
  unfold stripChars at hl
  rw [List.reverse_eq_nil_iff, List.dropWhile_eq_nil_iff] at hl
  have hsplit := List.takeWhile_append_dropWhile (p := isPyWhitespace) (l := s.data)
  rw [← hsplit] at hc
  rcases List.mem_append.mp hc with htake | hdrop
  · exact absurd (List.mem_takeWhile_imp htake) (by simp [hw])
  · have := hl c (List.mem_reverse.mpr hdrop)
    simp [hw] at this

/-- Transport list membership along string append. -/
theorem mem_data_append_left {c : Char} {s : String} (t : String) (hc : c ∈ s.data) :
    c ∈ (s ++ t).data := by
  rw [String.data_append]
  exact List.mem_append_left _ hc

/-- A string whose character list is non-empty is not the empty string. -/
theorem ne_empty_of_data {s : String} (h : s.data ≠ []) : s ≠ "" := by
  intro he
  apply h
  rw [he]

/-- Appending on the right preserves non-emptiness of the character list. -/
theorem append_data_ne_nil {s : String} (t : String) (h : s.data ≠ []) :
    (s ++ t).data ≠ [] := by
  rw [String.data_append]
  intro he
  exact h (List.append_eq_nil.mp he).1

/-- Searching terms none of which matches the lowered text produces no
excerpt entries. -/
theorem foundExcerpts_eq_nil {text : List Char} {terms : List String}
    (h : ∀ term ∈ terms, findPositions (lowerChars term.data) (lowerChars text) = []) :
    foundExcerpts text terms = [] := by
  induction terms with
  | nil => rfl
  | cons t ts ih =>
    show (List.map _ (findPositions (lowerChars t.data) (lowerChars text))) ++
      foundExcerpts text ts = []
    rw [h t (List.mem_cons_self t ts), List.map_nil, List.nil_append]
    exact ih (fun u hu => h u (List.mem_cons_of_mem t hu))

/-! # Claim theorems -/

/-- C8: calling `verify_information_present` twice with the same registered
store, source reference and search terms returns identical output, and
neither call mutates the Source Context Store — the executor is a pure
function over the registered text. -/
theorem claim_c8_verify_idempotent_pure (store : Store) (inp : VerifyInput) :
    (executeVerifyInformation store inp).2 = store ∧
    executeVerifyInformation ((executeVerifyInformation store inp).2) inp =
      executeVerifyInformation store inp := by
  refine ⟨executeVerifyInformation_store_eq store inp, ?_⟩
  rw [executeVerifyInformation_store_eq]

/-- C2: contrary to the claim, no extraction ever inserts into (or deletes
from) the Source Context Store: the dispatcher leaves every store unchanged,
and a concrete run in which the model issues a verification call finds the
store empty, so the call fails with the no-source-text error and the final
store is still empty — zero insertions and zero deletions instead of exactly
one of each. -/
theorem claim_c2_source_context_untouched :
    (∀ (store : Store) (call : ToolCall), (executeTool store call).2 = store) ∧
    (extractBioAgentic c2Script []).store = [] ∧
    ((extractBioAgentic c2Script []).result.map (fun r => r.tool_calls)) =
      some [⟨"verify_information_present", false,
        .verifyNoSource "wife_name" (some "src_ref_1"),
        some "No source text available for verification (missing or invalid source_ref)"⟩] :=
  ⟨executeTool_store_eq, by rfl, by decide⟩

/-- C9: the dispatcher `execute_tool` is total over the embedded tool calls
(unknown tool names included) and every failure result it returns carries a
non-empty error string. -/
theorem claim_c9_execute_tool_total (store : Store) (call : ToolCall) :
    (executeTool store call).1.success = false →
    ∃ e, (executeTool store call).1.error = some e ∧ e ≠ "" := by
  cases call with
  | validateDates inp =>
    simp only [executeTool, executeValidateDates]
    split
    · intro _
      refine ⟨_, rfl, ?_⟩
      refine pyStrip_ne_empty (c := 'D') ?_ rfl
      apply mem_data_append_left
      apply mem_data_append_left
      decide
    · intro h; simp at h
  | verifyInformation inp =>
    simp only [executeTool]
    unfold executeVerifyInformation
    dsimp only
    repeat' split
    all_goals intro h
    all_goals first
      | exact ⟨_, rfl, by decide⟩
      | simp at h
  | saveOfficerBio inp =>
    simp only [executeTool, executeSaveOfficerBio]
    split
    · intro _
      refine ⟨_, rfl, ne_empty_of_data ?_⟩
      unfold placeholderUrlError
      repeat' apply append_data_ne_nil
      decide
    · split
      · intro h; simp at h
      · intro _
        refine ⟨_, rfl, ne_empty_of_data ?_⟩
        repeat' apply append_data_ne_nil
        decide
  | unknownTool n =>
    intro _
    refine ⟨_, rfl, ne_empty_of_data ?_⟩
    unfold unknownToolError
    repeat' apply append_data_ne_nil
    decide

/-- C10: a `verify_information_present` call succeeds exactly when the source
reference is present and non-empty (an empty reference is falsy and counts as
missing), resolves to non-empty registered text, and the search-term list is
non-empty — in particular it succeeds even when no term matches, in which
case it reports a not-found payload carrying the searched terms. -/
theorem claim_c10_verify_success_conditions (store : Store) (inp : VerifyInput) :
    ((executeVerifyInformation store inp).1.success = true ↔
      (inp.search_terms ≠ [] ∧
        ∃ r t, inp.source_ref = some r ∧ r ≠ "" ∧
          resolveSourceContext store r = some t ∧ t ≠ "")) ∧
    (∀ r t, inp.source_ref = some r → r ≠ "" → resolveSourceContext store r = some t →
      t ≠ "" → inp.search_terms ≠ [] →
      (∀ term ∈ inp.search_terms,
        findPositions (lowerChars term.data) (lowerChars t.data) = []) →
      ∃ msg, (executeVerifyInformation store inp).1 =
        ⟨"verify_information_present", true,
          .verifyNotFound (inp.field_name.getD "unknown") inp.search_terms msg, none⟩) := by
  constructor
  · cases href : inp.source_ref with
    | none =>
      simp [executeVerifyInformation, href]
    | some r =>
      by_cases hr0 : r = ""
      · subst hr0
        simp [executeVerifyInformation, href]
      · cases hres : resolveSourceContext store r with
        | none =>
          simp [executeVerifyInformation, href, hr0, hres]
        | some t =>
          by_cases ht : t = ""
          · subst ht
            simp [executeVerifyInformation, href, hr0, hres]
          · by_cases hterms : inp.search_terms = []
            · simp [executeVerifyInformation, href, hr0, hres, ht, hterms]
            · simp only [executeVerifyInformation, href, hres, Option.getD_some]
              rw [if_neg hr0, if_neg ht, if_neg hterms]
              split
              · simp only [true_iff]
                exact ⟨hterms, r, t, rfl, hr0, hres, ht⟩
              · simp only [true_iff]
                exact ⟨hterms, r, t, rfl, hr0, hres, ht⟩
  · intro r t href hr0 hres ht hterms hnone
    simp only [executeVerifyInformation, href, hres, Option.getD_some]
    rw [if_neg hr0, if_neg ht, if_neg hterms]
    have hfe : foundExcerpts t.data inp.search_terms = [] := foundExcerpts_eq_nil hnone
    rw [hfe]
    simp only [ne_eq, not_true_eq_false, if_false]
    exact ⟨_, rfl⟩

/-- C9 witness: a dispatch of an unregistered tool name fails with a
non-empty error string. -/
theorem claim_c9_execute_tool_total_witness :
    (executeTool [] (.unknownTool "no_such_tool")).1.success = false ∧
    ∃ e, (executeTool [] (.unknownTool "no_such_tool")).1.error = some e ∧ e ≠ "" :=
  ⟨by decide, claim_c9_execute_tool_total [] (.unknownTool "no_such_tool") (by decide)⟩

/-- C10 witness: with non-empty registered text and a non-empty, non-matching
term list, the verification call succeeds and reports a not-found payload
carrying the searched terms. -/
theorem claim_c10_verify_success_conditions_witness :
    (executeVerifyInformation c10Store c10Input).1.success = true ∧
    ∃ msg, (executeVerifyInformation c10Store c10Input).1 =
      ⟨"verify_information_present", true,
        .verifyNotFound "wife_name" ["妻子"] msg, none⟩ :=
  ⟨(claim_c10_verify_success_conditions c10Store c10Input).1.mpr
      ⟨by decide, "src_w", "他的夫人是张三。", rfl, by decide, by decide, by decide⟩,
   (claim_c10_verify_success_conditions c10Store c10Input).2 "src_w" "他的夫人是张三。"
      rfl (by decide) (by decide) (by decide) (by decide) (by decide)⟩

/-- The agentic loop makes at most `fuel` further model requests. -/
theorem agenticLoop_apiCalls_le (fuel : Nat) (script : List ModelResponse) (store : Store)
    (history : List ToolResult) (turns calls itok otok : Nat) :
    (agenticLoop fuel script store history turns calls itok otok).apiCalls ≤ calls + fuel := by
  induction fuel generalizing script store history turns calls itok otok with
  | zero => simp [agenticLoop]
  | succ f ih =>
    cases script with
    | nil => simp [agenticLoop]
    | cons r rest =>
      cases hr : r.stopReason with
      | toolUse =>
        simp only [agenticLoop, hr]
        exact le_trans (ih ..) (by omega)
      | endTurn => simp [agenticLoop, hr]
      | maxTokens => simp [agenticLoop, hr]
      | other s => simp [agenticLoop, hr]

/-- C3 (amended): an extraction issues at most `MAX_ITERATIONS` (10) model
requests — one per agentic-loop iteration, stopping at the first response
whose stop reason is not `tool_use`; there is no two-request repair bound. -/
theorem claim_c3_api_calls_bounded (script : List ModelResponse) (store : Store) :
    (extractBioAgentic script store).apiCalls ≤ maxIterations := by
  have h := agenticLoop_apiCalls_le maxIterations script store [] 0 0 0 0
  rw [Nat.zero_add] at h
  unfold extractBioAgentic
  dsimp only
  split
  · exact h
  · exact h
  · exact h
  · split
    · exact h
    · exact h

/-- C3 counterexample: a run with three tool-use responses (two of them
failing `save_officer_bio` validations) before the model stops makes four
model requests — more than the claimed two — and surfaces the fixed
"Officer bio was not saved" message rather than the validation error. -/
theorem claim_c3_counterexample :
    (extractBioAgentic c3Script []).apiCalls = 4 ∧
    ¬ ((extractBioAgentic c3Script []).apiCalls ≤ 2) ∧
    ((extractBioAgentic c3Script []).result.map (fun r => r.success)) = some false ∧
    ((extractBioAgentic c3Script []).result.map (fun r => r.error_message)) =
      some (some "Officer bio was not saved - save_officer_bio was never called or failed") ∧
    ((extractBioAgentic c3Script []).result.map
      (fun r => r.tool_calls.map (fun t => t.success))) = some [false, false] := by
  refine ⟨by rfl, by decide, by decide, by decide, by decide⟩

/-- C7: a payload whose sanitized source URL contains a known placeholder
pattern is rejected with the placeholder-URL error — never with the
schema-validation failure payload — and the check precedes schema validation:
the concrete payload with `source_url = "https://example.com/test"` and a
schema-invalid name still gets the placeholder error, although its schema
validation alone would fail. -/
theorem claim_c7_placeholder_url_guard (raw : SaveBioRaw)
    (h : (validateRealSourceUrl ((sanitizeToolInput raw).source_url.getD "")).1 = false) :
    ((executeSaveOfficerBio raw).success = false ∧
     (executeSaveOfficerBio raw).error =
       some (placeholderUrlError ((sanitizeToolInput raw).source_url.getD "")) ∧
     ∀ errs, (executeSaveOfficerBio raw).data ≠ .saveInvalid errs) ∧
    ((executeSaveOfficerBio c7Raw).error =
       some (placeholderUrlError "https://example.com/test") ∧
     mkOfficerBio (sanitizeToolInput c7Raw) = .error ["name: Field required"]) := by
  constructor
  · unfold executeSaveOfficerBio
    dsimp only
    rw [if_pos h]
    exact ⟨rfl, rfl, fun errs => by simp⟩
  · exact ⟨by decide, by rfl⟩

/-- C7 witness: the placeholder-URL hypothesis holds at the concrete payload
and the guard conclusions follow. -/
theorem claim_c7_placeholder_url_guard_witness :
    (validateRealSourceUrl ((sanitizeToolInput c7Raw).source_url.getD "")).1 = false ∧
    (executeSaveOfficerBio c7Raw).success = false :=
  ⟨by decide, ((claim_c7_placeholder_url_guard c7Raw (by decide)).1).1⟩

/-- C4 (amended): when none of a rare field's search terms occurs in the
source text registered under a (non-empty) reference token,
`verify_information_present` returns a successful not-found report carrying
the searched terms and leaves the store unchanged; no component sets the
field to absent or appends an extraction note — in the scenario-C pipeline
run the saved record keeps `wife_name = "张三"` and its extraction notes stay
empty. -/
theorem claim_c4_verification_reports_only (ref text fieldName : String)
    (terms : List String) (href : ref ≠ "") (htext : text ≠ "") (hterms : terms ≠ [])
    (hnomatch : ∀ t ∈ terms, findPositions (lowerChars t.data) (lowerChars text.data) = []) :
    (executeVerifyInformation [(ref, text)] ⟨some fieldName, terms, some ref⟩ =
      ({ tool_name := "verify_information_present", success := true,
         data := .verifyNotFound fieldName terms
           ("No mention of " ++ fieldName ++ " found in the text. Searched for: " ++
            joinComma terms),
         error := none }, [(ref, text)])) ∧
    (((extractBioAgentic c4Script c4Store).result.bind (fun r => r.officer_bio)).map
      (fun b => (b.wife_name, b.extraction_notes)) = some (some "张三", none)) := by
  constructor
  · have hres : resolveSourceContext [(ref, text)] ref = some text := by
      simp [resolveSourceContext, List.lookup]
    simp only [executeVerifyInformation, hres, Option.getD_some]
    rw [if_neg href, if_neg htext, if_neg hterms]
    have hfe : foundExcerpts text.data terms = [] := foundExcerpts_eq_nil hnomatch
    rw [hfe]
    simp only [ne_eq, not_true_eq_false, if_false]
  · decide

/-- C4 witness: the no-match hypotheses hold for `wife_name` with terms
妻子/夫人/配偶 against the scenario-C source text, and the verification call
returns the successful not-found report with the store unchanged. -/
theorem claim_c4_verification_reports_only_witness :
    (("src_w4" : String) ≠ "" ∧ c4SourceText ≠ "" ∧
      (["妻子", "夫人", "配偶"] : List String) ≠ []) ∧
    executeVerifyInformation [("src_w4", c4SourceText)]
        ⟨some "wife_name", ["妻子", "夫人", "配偶"], some "src_w4"⟩ =
      ({ tool_name := "verify_information_present", success := true,
         data := .verifyNotFound "wife_name" ["妻子", "夫人", "配偶"]
           ("No mention of wife_name found in the text. Searched for: " ++
            joinComma ["妻子", "夫人", "配偶"]),
         error := none }, [("src_w4", c4SourceText)]) :=
  ⟨⟨by decide, by decide, by decide⟩,
   (claim_c4_verification_reports_only "src_w4" c4SourceText "wife_name"
      ["妻子", "夫人", "配偶"] (by decide) (by decide) (by decide) (by decide)).1⟩

/-- C4 counterexample: in the scenario-C run (rare field `wife_name = "张三"`,
source text matching none of 妻子/夫人/配偶), the verification call reports
not-found, yet the final record still carries `wife_name = "张三"` — the field
is not set to absent — and the extraction notes remain empty, so no audit note
naming the field was appended. -/
theorem claim_c4_counterexample :
    (((extractBioAgentic c4Script c4Store).result.bind (fun r => r.officer_bio)).map
      (fun b => b.wife_name)) = some (some "张三") ∧
    (((extractBioAgentic c4Script c4Store).result.bind (fun r => r.officer_bio)).map
      (fun b => b.extraction_notes)) = some none ∧
    (some "张三" ≠ (none : Option String)) ∧
    ((extractBioAgentic c4Script c4Store).result.map
      (fun r => r.tool_calls.head?.map (fun t => t.data))) =
      some (some (.verifyNotFound "wife_name" ["妻子", "夫人", "配偶"]
        "No mention of wife_name found in the text. Searched for: 妻子, 夫人, 配偶")) := by
  refine ⟨by decide, by decide, by decide, by decide⟩

/-- The birth-date error block is empty exactly when the birth year (if
tracked) does not exceed the enlistment, party and promotion years. -/
theorem birthErrors_eq_nil (yb ye yp : Option Nat) (promos : List (String × Nat)) :
    birthErrors yb ye yp promos = [] ↔
      ∀ b ∈ yb, (∀ e ∈ ye, b ≤ e) ∧ (∀ p ∈ yp, b ≤ p) ∧ ∀ pr ∈ promos, b ≤ pr.2 := by
  cases yb <;> cases ye <;> cases yp <;>
    simp [birthErrors, List.filterMap_eq_nil_iff, Nat.not_lt]

/-- The death-date error block is empty exactly when the death year (if
tracked) is not below the birth and enlistment years. -/
theorem deathErrors_eq_nil (yd yb ye : Option Nat) :
    deathErrors yd yb ye = [] ↔
      ∀ d ∈ yd, (∀ b ∈ yb, b ≤ d) ∧ ∀ e ∈ ye, e ≤ d := by
  cases yd <;> cases yb <;> cases ye <;> simp [deathErrors, Nat.not_lt]

/-- The enlistment-versus-promotion error block is empty exactly when the
enlistment year (if tracked) does not exceed any tracked promotion year. -/
theorem enlistPromoErrors_eq_nil (ye : Option Nat) (promos : List (String × Nat)) :
    enlistPromoErrors ye promos = [] ↔ ∀ e ∈ ye, ∀ pr ∈ promos, e ≤ pr.2 := by
  cases ye <;> simp [enlistPromoErrors, List.filterMap_eq_nil_iff, Nat.not_lt]

/-- The adjacent-pair error block is empty exactly when the tracked promotion
years are non-decreasing in extraction order. -/
theorem promoPairErrors_eq_nil (l : List (String × Nat)) :
    promoPairErrors l = [] ↔ List.Chain' (fun a b => a.2 ≤ b.2) l := by
  induction l with
  | nil => simp [promoPairErrors]
  | cons a t ih =>
    cases t with
    | nil => simp [promoPairErrors]
    | cons b t2 =>
      rw [List.chain'_cons]
      simp only [promoPairErrors, List.append_eq_nil, ih]
      constructor
      · rintro ⟨h1, h2⟩
        refine ⟨?_, h2⟩
        by_contra hlt
        rw [if_pos (Nat.lt_of_not_le hlt)] at h1
        exact List.cons_ne_nil _ _ h1
      · rintro ⟨h1, h2⟩
        exact ⟨by rw [if_neg (Nat.not_lt.mpr h1)], h2⟩

/-- Embeds `execute_validate_dates` succeeds exactly when the declaratively stated
chronology constraints hold over the tracked years. -/
theorem validateDates_success_iff (inp : DatesInput) :
    ((executeValidateDates inp).success = true) ↔ chronologyConsistent inp := by
  have hsucc : ((executeValidateDates inp).success = true) ↔ validateDatesErrors inp = [] := by
    by_cases h : validateDatesErrors inp = [] <;> simp [executeValidateDates, h]
  rw [hsucc]
  unfold validateDatesErrors chronologyConsistent
  simp only [List.append_eq_nil, birthErrors_eq_nil, deathErrors_eq_nil,
    enlistPromoErrors_eq_nil, promoPairErrors_eq_nil, and_assoc]

/-- C5 (amended): the Chronology Validator accumulates all violations, skips
missing dates and also any date whose parsed year is 0 or that does not start
with four digits, and succeeds exactly when birth ≤ enlistment/party/promotion
years, death ≥ birth/enlistment years, enlistment ≤ every promotion year, and
promotions are non-decreasing in extraction order; scenario B
(enlistment 1990, promotion 少将 dated 1985) fails with the message naming the
pair and the rank, scenario A succeeds with zero errors, and an input with two
independent violations reports both. -/
theorem claim_c5_chronology :
    (∀ inp : DatesInput, (executeValidateDates inp).success = true ↔ chronologyConsistent inp) ∧
    (executeValidateDates c5ScenarioA).success = true ∧
    (executeValidateDates c5ScenarioA).data =
      .datesOk [] (some 1943) (some 1961) (some 1964) (some 2023) 1 ∧
    (executeValidateDates c5ScenarioB).success = false ∧
    (executeValidateDates c5ScenarioB).data =
      .datesErrors ["Enlistment date 1990 is after promotion to 少将 in 1985"] [] ∧
    validateDatesErrors c5TwoViolations =
      ["Birth date 2000 is after enlistment date 1990",
       "Death date 1995 is before birth date 2000"] :=
  ⟨validateDates_success_iff, by decide, by decide, by decide, by decide, by decide⟩

/-- C5 witness: scenario A satisfies the declarative chronology constraints,
obtained by applying the equivalence at the concrete input. -/
theorem claim_c5_chronology_witness : chronologyConsistent c5ScenarioA :=
  (claim_c5_chronology.1 c5ScenarioA).mp (by decide)

/-- C5 counterexample: a promotion dated `"0000"` is a present, well-formatted
date (`^\d{4}$`) parsing to year 0, yet the validator drops it through the
truthiness guard `if year:`, so enlistment year 1 with a year-0 promotion
succeeds with zero errors instead of reporting the enlistment-after-promotion
violation the claim requires. -/
theorem claim_c5_counterexample :
    (executeValidateDates c5YearZero).success = true ∧
    (executeValidateDates c5YearZero).data = .datesOk [] none (some 1) none none 0 ∧
    isYYYY "0000" = true ∧
    parseYear (some "0000") = some 0 ∧
    parseYear (some "0001") = some 1 := by
  refine ⟨by decide, by decide, by decide, by decide, by decide⟩

/-- A date field that passes `validateDateField` is returned unchanged and
matches one of the two accepted shapes. -/
theorem validateDateField_ok {v w : Option String} (h : validateDateField v = .ok w) :
    w = v ∧ ∀ s ∈ w, isYYYY s = true ∨ isYMDShape s = true := by
  cases v with
  | none =>
    simp only [validateDateField] at h
    cases h
    exact ⟨rfl, by simp⟩
  | some s =>
    simp only [validateDateField] at h
    by_cases h1 : isYYYY s = true
    · rw [if_pos h1] at h
      cases h
      exact ⟨rfl, fun u hu => by rw [Option.mem_some_iff] at hu; subst hu; exact .inl h1⟩
    · rw [if_neg h1] at h
      by_cases h2 : isYMDShape s = true
      · rw [if_pos h2] at h
        by_cases h3 : validCalendar s = true
        · rw [if_pos h3] at h
          cases h
          exact ⟨rfl, fun u hu => by rw [Option.mem_some_iff] at hu; subst hu; exact .inr h2⟩
        · rw [if_neg h3] at h
          exact Except.noConfusion h
      · rw [if_neg h2] at h
        exact Except.noConfusion h

/-- A promotion that passes field validation has a well-formed date. -/
theorem validatePromotion_ok {i : Nat} {q : PromoRaw} {p : Promotion}
    (h : validatePromotion i q = .ok p) :
    ∀ s ∈ p.date, isYYYY s = true ∨ isYMDShape s = true := by
  cases hr : validateRank q.rank with
  | error m => simp [validatePromotion, hr] at h
  | ok r =>
    cases hd2 : validateDateField q.date with
    | error m => simp [validatePromotion, hr, hd2] at h
    | ok d =>
      have hpd : p.date = d := by
        simp only [validatePromotion, hr, hd2] at h
        cases h
        rfl
      rw [hpd]
      exact (validateDateField_ok hd2).2

/-- Every promotion in a validated promotions list has a well-formed date. -/
theorem validatePromotions_ok {ops : Option (List PromoRaw)} {pr : Option (List Promotion)}
    (h : validatePromotions ops = .ok pr) :
    ∀ ps ∈ pr, ∀ p ∈ ps, ∀ s ∈ p.date, isYYYY s = true ∨ isYMDShape s = true := by
  cases ops with
  | none =>
    simp only [validatePromotions] at h
    cases h
    simp
  | some ps0 =>
    simp only [validatePromotions] at h
    split at h
    · cases h
      intro ps hps p hp s hs
      rw [Option.mem_some_iff] at hps
      subst hps
      rw [List.mem_filterMap] at hp
      obtain ⟨r, hr, hro⟩ := hp
      rw [List.mem_map] at hr
      obtain ⟨pi, _, rfl⟩ := hr
      have hok : validatePromotion pi.1 pi.2 = .ok p := by
        cases hv : validatePromotion pi.1 pi.2 with
        | ok a => rw [hv] at hro; cases hro; rfl
        | error e => rw [hv] at hro; exact Option.noConfusion hro
      exact validatePromotion_ok hok s hs
    · exact Except.noConfusion h

/-- The element-wise year comparison used by `validate_date_logic`: it is
`false` exactly when no tracked pair is out of order. -/
theorem optLt_eq_false_iff (x y : Option Nat) :
    (match x, y with
     | some a, some b => decide (a < b)
     | _, _ => false) = false ↔ ∀ a ∈ x, ∀ b ∈ y, b ≤ a := by
  cases x <;> cases y <;> simp [Nat.not_lt]

/-- C6: every constructible Biography Record has every populated date field
matching `^\d{4}$` or `^\d{4}-\d{2}-\d{2}$` (promotion dates included), and
satisfies death ≥ birth, enlistment ≥ birth and retirement ≥ enlistment on
the populated year pairs — ill-formed or out-of-order inputs are rejected at
construction. -/
theorem claim_c6_construction_invariants (inp : BioInput) (bio : OfficerBio)
    (h : mkOfficerBio inp = .ok bio) :
    dateFieldOk bio.birth_date ∧ dateFieldOk bio.enlistment_date ∧
    dateFieldOk bio.party_membership_date ∧ dateFieldOk bio.retirement_date ∧
    dateFieldOk bio.death_date ∧
    (∀ ps ∈ bio.promotions, ∀ p ∈ ps, dateFieldOk p.date) ∧
    (∀ b ∈ bio.birth_date, ∀ d ∈ bio.death_date, year4 b ≤ year4 d) ∧
    (∀ b ∈ bio.birth_date, ∀ e ∈ bio.enlistment_date, year4 b ≤ year4 e) ∧
    (∀ e ∈ bio.enlistment_date, ∀ r ∈ bio.retirement_date, year4 e ≤ year4 r) := by
  cases hnm : validateName inp.name with
  | error m => simp [mkOfficerBio, hnm] at h
  | ok nm =>
  cases hurl : validateUrl inp.source_url with
  | error m => simp [mkOfficerBio, hnm, hurl] at h
  | ok url =>
  cases hb : validateDateField inp.birth_date with
  | error m => simp [mkOfficerBio, hnm, hurl, hb] at h
  | ok b =>
  cases he : validateDateField inp.enlistment_date with
  | error m => simp [mkOfficerBio, hnm, hurl, hb, he] at h
  | ok e =>
  cases hp : validateDateField inp.party_membership_date with
  | error m => simp [mkOfficerBio, hnm, hurl, hb, he, hp] at h
  | ok p =>
  cases hr : validateDateField inp.retirement_date with
  | error m => simp [mkOfficerBio, hnm, hurl, hb, he, hp, hr] at h
  | ok r =>
  cases hd : validateDateField inp.death_date with
  | error m => simp [mkOfficerBio, hnm, hurl, hb, he, hp, hr, hd] at h
  | ok d =>
  cases hpr : validatePromotions inp.promotions with
  | error m => simp [mkOfficerBio, hnm, hurl, hb, he, hp, hr, hd, hpr] at h
  | ok pr =>
  cases hc : validateConfidence inp.confidence_score with
  | error m => simp [mkOfficerBio, hnm, hurl, hb, he, hp, hr, hd, hpr, hc] at h
  | ok c =>
  simp only [mkOfficerBio, hnm, hurl, hb, he, hp, hr, hd, hpr, hc] at h
  split at h
  · exact Except.noConfusion h
  · split at h
    · exact Except.noConfusion h
    · split at h
      · exact Except.noConfusion h
      · rename_i hde hen hre
        cases h
        refine ⟨(validateDateField_ok hb).2, (validateDateField_ok he).2,
          (validateDateField_ok hp).2, (validateDateField_ok hr).2,
          (validateDateField_ok hd).2, validatePromotions_ok hpr, ?_, ?_, ?_⟩
        · intro bs hbs ds hds
          have h1 := (optLt_eq_false_iff (d.map year4) (b.map year4)).mp
            (Bool.of_not_eq_true hde)
          exact h1 (year4 ds) (Option.mem_map_of_mem year4 hds)
            (year4 bs) (Option.mem_map_of_mem year4 hbs)
        · intro bs hbs es hes
          have h1 := (optLt_eq_false_iff (e.map year4) (b.map year4)).mp
            (Bool.of_not_eq_true hen)
          exact h1 (year4 es) (Option.mem_map_of_mem year4 hes)
            (year4 bs) (Option.mem_map_of_mem year4 hbs)
        · intro es hes rs hrs
          have h1 := (optLt_eq_false_iff (r.map year4) (e.map year4)).mp
            (Bool.of_not_eq_true hre)
          exact h1 (year4 rs) (Option.mem_map_of_mem year4 hrs)
            (year4 es) (Option.mem_map_of_mem year4 hes)

/-- C6 witness: the fully populated, ordered input constructs successfully and
the resulting record satisfies the construction invariants. -/
theorem claim_c6_construction_invariants_witness :
    mkOfficerBio c6Input = .ok c6Bio ∧
    (dateFieldOk c6Bio.birth_date ∧ dateFieldOk c6Bio.enlistment_date ∧
     dateFieldOk c6Bio.party_membership_date ∧ dateFieldOk c6Bio.retirement_date ∧
     dateFieldOk c6Bio.death_date ∧
     (∀ ps ∈ c6Bio.promotions, ∀ p ∈ ps, dateFieldOk p.date) ∧
     (∀ b ∈ c6Bio.birth_date, ∀ d ∈ c6Bio.death_date, year4 b ≤ year4 d) ∧
     (∀ b ∈ c6Bio.birth_date, ∀ e ∈ c6Bio.enlistment_date, year4 b ≤ year4 e) ∧
     (∀ e ∈ c6Bio.enlistment_date, ∀ r ∈ c6Bio.retirement_date, year4 e ≤ year4 r)) :=
  ⟨by rfl, claim_c6_construction_invariants c6Input c6Bio (by rfl)⟩

/-- The numerator/denominator range check agrees with the float comparison
`0 <= confidence_score <= 1` it embeds. -/
theorem confidenceInRange_iff (q : ℚ) : confidenceInRange q = true ↔ (0 ≤ q ∧ q ≤ 1) := by
  unfold confidenceInRange
  rw [Bool.and_eq_true, decide_eq_true_eq, decide_eq_true_eq, Rat.num_nonneg]
  constructor
  · rintro ⟨h1, h2⟩
    refine ⟨h1, ?_⟩
    rw [Rat.le_def]
    simpa using h2
  · rintro ⟨h1, h2⟩
    refine ⟨h1, ?_⟩
    rw [Rat.le_def] at h2
    simpa using h2

/-- Round-half-even stays within `[0, 100]` on that interval. -/
theorem roundHalfEven_bounds {x : ℚ} (h0 : 0 ≤ x) (h100 : x ≤ 100) :
    0 ≤ roundHalfEven x ∧ roundHalfEven x ≤ 100 := by
  have hf0 : (0:ℤ) ≤ ⌊x⌋ := Int.floor_nonneg.mpr h0
  have hfle : (⌊x⌋ : ℚ) ≤ x := Int.floor_le x
  have hf100 : ⌊x⌋ ≤ 100 := by exact_mod_cast hfle.trans h100
  unfold roundHalfEven
  dsimp only
  by_cases h1 : x - (⌊x⌋ : ℚ) < 1 / 2
  · rw [if_pos h1]
    exact ⟨hf0, hf100⟩
  · rw [if_neg h1]
    by_cases h2 : 1 / 2 < x - (⌊x⌋ : ℚ)
    · rw [if_pos h2]
      have h99q : (⌊x⌋ : ℚ) < 100 := by linarith
      have h99 : ⌊x⌋ < 100 := by exact_mod_cast h99q
      omega
    · rw [if_neg h2]
      by_cases h3 : ⌊x⌋ % 2 = 0
      · rw [if_pos h3]
        exact ⟨hf0, hf100⟩
      · rw [if_neg h3]
        have heq : x - (⌊x⌋ : ℚ) = 1 / 2 := le_antisymm (not_lt.mp h2) (not_lt.mp h1)
        have h99q : (⌊x⌋ : ℚ) < 100 := by linarith
        have h99 : ⌊x⌋ < 100 := by exact_mod_cast h99q
        omega

/-- Two-decimal rounding keeps `[0, 1]` values in `[0, 1]`. -/
theorem round2_mem_unit {q : ℚ} (h0 : 0 ≤ q) (h1 : q ≤ 1) :
    0 ≤ round2 q ∧ round2 q ≤ 1 := by
  have hx0 : 0 ≤ q * 100 := mul_nonneg h0 (by norm_num)
  have hx100 : q * 100 ≤ 100 := by linarith
  obtain ⟨hl, hr⟩ := roundHalfEven_bounds hx0 hx100
  unfold round2
  constructor
  · exact div_nonneg (by exact_mod_cast hl) (by norm_num)
  · rw [div_le_one (by norm_num : (0:ℚ) < 100)]
    exact_mod_cast hr

/-- The weighted 0.7/0.3 average of two `[0, 1]` quantities, two-decimal
rounded, is the rounding of a `[0, 1]` quantity and lies in `[0, 1]`. -/
theorem score_bounds {b k : ℚ} (hb0 : 0 ≤ b) (hb1 : b ≤ 1) (hk0 : 0 ≤ k) (hk1 : k ≤ 1) :
    (∃ q, 0 ≤ q ∧ q ≤ 1 ∧ round2 (b * (7 / 10) + k * (3 / 10)) = round2 q) ∧
    0 ≤ round2 (b * (7 / 10) + k * (3 / 10)) ∧ round2 (b * (7 / 10) + k * (3 / 10)) ≤ 1 := by
  have hq0 : 0 ≤ b * (7 / 10) + k * (3 / 10) := by
    have := mul_nonneg hb0 (by norm_num : (0:ℚ) ≤ 7 / 10)
    have := mul_nonneg hk0 (by norm_num : (0:ℚ) ≤ 3 / 10)
    linarith
  have hq1 : b * (7 / 10) + k * (3 / 10) ≤ 1 := by nlinarith
  obtain ⟨h2, h3⟩ := round2_mem_unit hq0 hq1
  exact ⟨⟨_, hq0, hq1, rfl⟩, h2, h3⟩

/-- A `min` with 1 of a non-negative quantity lies in `[0, 1]`. -/
theorem min_one_bounds {x : ℚ} (hx : 0 ≤ x) : 0 ≤ min 1 x ∧ min 1 x ≤ 1 :=
  ⟨le_min (by norm_num) hx, min_le_left _ _⟩

/-- The key-field completeness count never exceeds the key-field set size. -/
theorem keyFieldsPopulated_le (bio : OfficerBio) : keyFieldsPopulated bio ≤ 7 := by
  unfold keyFieldsPopulated
  exact le_trans (List.count_le_length _ _) (by simp)

/-- C1 (amended): `_calculate_confidence` is a deterministic function of the
final record and the tool log; whenever the record's stored confidence lies in
`[0, 1]`, its value is a two-decimal rounding of a quantity in `[0, 1]` (the
0.7/0.3 weighted average of the boosted stored confidence and the key-field
completeness fraction) and therefore itself lies in `[0, 1]`. -/
theorem claim_c1_confidence_formula (bio : OfficerBio) (toolCalls : List ToolResult)
    (h0 : 0 ≤ bio.confidence_score) (h1 : bio.confidence_score ≤ 1) :
    (∃ q, 0 ≤ q ∧ q ≤ 1 ∧ calculateConfidence bio toolCalls = round2 q) ∧
    0 ≤ calculateConfidence bio toolCalls ∧ calculateConfidence bio toolCalls ≤ 1 := by
  have hk0 : (0:ℚ) ≤ (keyFieldsPopulated bio : ℚ) / 7 := by positivity
  have hk1 : (keyFieldsPopulated bio : ℚ) / 7 ≤ 1 := by
    rw [div_le_one (by norm_num : (0:ℚ) < 7)]
    exact_mod_cast keyFieldsPopulated_le bio
  unfold calculateConfidence
  dsimp only
  by_cases h2 : (toolCalls.any fun tc => tc.tool_name = "validate_dates" && tc.success) = true
  · rw [if_pos h2]
    obtain ⟨hb0, hb1⟩ := min_one_bounds (x := bio.confidence_score + 5 / 100) (by linarith)
    by_cases h3 :
        0 < (toolCalls.filter fun tc => tc.tool_name = "verify_information_present").length
    · rw [if_pos h3]
      obtain ⟨hc0, hc1⟩ :=
        min_one_bounds (x := min 1 (bio.confidence_score + 5 / 100) + 3 / 100) (by linarith)
      exact score_bounds hc0 hc1 hk0 hk1
    · rw [if_neg h3]
      exact score_bounds hb0 hb1 hk0 hk1
  · rw [if_neg h2]
    by_cases h3 :
        0 < (toolCalls.filter fun tc => tc.tool_name = "verify_information_present").length
    · rw [if_pos h3]
      obtain ⟨hc0, hc1⟩ :=
        min_one_bounds (x := bio.confidence_score + 3 / 100) (by linarith)
      exact score_bounds hc0 hc1 hk0 hk1
    · rw [if_neg h3]
      exact score_bounds h0 h1 hk0 hk1

/-- C1 witness: the hypotheses hold for the all-empty record with stored
confidence 0, and the bounds follow at that record with an empty tool log. -/
theorem claim_c1_confidence_formula_witness :
    (0 ≤ c1Bio.confidence_score ∧ c1Bio.confidence_score ≤ 1) ∧
    (0 ≤ calculateConfidence c1Bio [] ∧ calculateConfidence c1Bio [] ≤ 1) :=
  ⟨⟨by norm_num [c1Bio], by norm_num [c1Bio]⟩,
   (claim_c1_confidence_formula c1Bio [] (by norm_num [c1Bio]) (by norm_num [c1Bio])).2⟩

/-- C1 counterexample: on the all-empty record with stored confidence 0 and an
empty tool log, the source's scorer returns 0.00 while the spec's
`0.55·completeness + 0.25·chronology + 0.10·verificationRate +
0.10·toolRate` formula returns 0.05 (the verification ratio defaults to 0.5),
so the claimed formula does not compute the code's score. -/
theorem claim_c1_confidence_counterexample :
    calculateConfidence c1Bio [] = 0 ∧ specConfidence c1Bio [] = 1 / 20 ∧
    calculateConfidence c1Bio [] ≠ specConfidence c1Bio [] := by
  have h1 : calculateConfidence c1Bio [] = 0 := by
    simp [calculateConfidence, keyFieldsPopulated, c1Bio, round2, roundHalfEven]
  have h2 : specConfidence c1Bio [] = 1 / 20 := by
    simp only [specConfidence, keyFieldsPopulated, c1Bio]
    norm_num [round2, roundHalfEven]
  refine ⟨h1, h2, ?_⟩
  rw [h1, h2]
  norm_num

end PLAgent
